import Mathlib

/-
Verification of the mmrazor NAS mutator components against their
natural-language specification.

The development shallowly embeds the three source files:
  * mmrazor/models/mutators/nas_mutator.py            (NasMutator)
  * mmrazor/models/mutators/channel_mutator/channel_mutator.py (ChannelMutator)
  * mmrazor/models/algorithms/nas/autoformer.py       (Autoformer)

Mutable modules are identified by natural-number ids; their mutable
per-object state (current_choice, is_fixed, the value passed to
fix_chosen) is a store indexed by id, while static attributes
(alias, max_choice, min_choice, the outcome of sample_choice) live in
an environment `info : Nat -> MutableInfo`.  Search groups are the
insertion-ordered dict `_search_groups`, embedded as an association
list from group name to the list of member ids.  Python loops over
groups and members become structural recursion in the same order.
-/

namespace Mmrazor

/-- Static attributes of a BaseMutable module.  `aliasName` is the
optional alias consulted by NasMutator.set_choices; `sampleChoice` is
the outcome of sample_choice() and `sampleArch` the outcome of
sample_choice(arch_param), both modelled as fixed per-module data
since their randomness is outside the embedded code. -/
structure MutableInfo where
  aliasName : Option String
  maxChoice : Nat
  minChoice : Nat
  sampleChoice : Nat
  sampleArch : Nat
  deriving DecidableEq

/-- The search groups of a NasMutator: an insertion-ordered dict from
group name to the member mutables (by id). -/
def Groups : Type := List (String × List Nat)

/-- Python dict lookup over an association list with string keys. -/
def dictLookup (k : String) : List (String × Nat) → Option Nat
  | [] => none
  | (k2, v) :: rest => if k = k2 then some v else dictLookup k rest

/-- The inner loop of set_choices and set_max/min_choices:
for mutable in mutables: mutable.current_choice = choice. -/
def setGroupMembers (members : List Nat) (c : Nat) (cur : Nat → Nat) : Nat → Nat :=
  match members with
  | [] => cur
  | m :: rest => setGroupMembers rest c (fun j => if j = m then c else cur j)

/-- One iteration of the group loop shared by set_choices and
set_max/min_choices: resolve the choice for the group (skipping the
group when it resolves to none) and assign it to every member. -/
def applyGroupStep (choiceOf : String × List Nat → Option Nat)
    (cur : Nat → Nat) (g : String × List Nat) : Nat → Nat :=
  match choiceOf g with
  | none => cur
  | some c => setGroupMembers g.2 c cur

/-- The loop `for name, mutables in self.search_groups.items()` of the
choice-setting methods of NasMutator. -/
def applyGroupChoices (choiceOf : String × List Nat → Option Nat) :
    List (String × List Nat) → (Nat → Nat) → Nat → Nat
  | [], cur => cur
  | g :: rest, cur => applyGroupChoices choiceOf rest (applyGroupStep choiceOf cur g)

/-- The key resolution of NasMutator.set_choices (lines 160-168):
take choices[name] when the group name is a key; otherwise take
choices[mutables[0].alias] when the first member has an alias that is
a key; otherwise skip the group (continue). -/
def resolveChoice (info : Nat → MutableInfo) (choices : List (String × Nat))
    (g : String × List Nat) : Option Nat :=
  match dictLookup g.1 choices with
  | some c => some c
  | none =>
    match g.2.head? with
    | none => none
    | some m0 =>
      match (info m0).aliasName with
      | none => none
      | some a => dictLookup a choices

/-- NasMutator.set_choices: set the resolved choice on every mutable
of every (non-skipped) search group. -/
def setChoices (info : Nat → MutableInfo) (choices : List (String × Nat))
    (groups : List (String × List Nat)) (cur : Nat → Nat) : Nat → Nat :=
  applyGroupChoices (resolveChoice info choices) groups cur

/-- NasMutator.current_choices: for each group, read
mutables[0].current_choice. -/
def currentChoicesDict (cur : Nat → Nat) (groups : List (String × List Nat)) :
    List (String × Nat) :=
  groups.map (fun g => (g.1, cur (g.2.headD 0)))

/-- NasMutator.max_choices: for each group, mutables[0].max_choice. -/
def maxChoicesDict (info : Nat → MutableInfo) (groups : List (String × List Nat)) :
    List (String × Nat) :=
  groups.map (fun g => (g.1, (info (g.2.headD 0)).maxChoice))

/-- NasMutator.min_choices: for each group, mutables[0].min_choice. -/
def minChoicesDict (info : Nat → MutableInfo) (groups : List (String × List Nat)) :
    List (String × Nat) :=
  groups.map (fun g => (g.1, (info (g.2.headD 0)).minChoice))

/-- The per-group value sampled by NasMutator.sample_choices: with
arch params prepared, mutables[0].sample_choice(arch_param); otherwise
mutables[0].max_choice, min_choice or sample_choice() according to
kind. -/
def sampleVal (archPrepared : Bool) (info : Nat → MutableInfo) (kind : String)
    (g : String × List Nat) : Nat :=
  let m0 := g.2.headD 0
  if archPrepared then (info m0).sampleArch
  else if kind = "max" then (info m0).maxChoice
  else if kind = "min" then (info m0).minChoice
  else (info m0).sampleChoice

/-- NasMutator.sample_choices: one sampled value per search group. -/
def sampleChoicesD (archPrepared : Bool) (info : Nat → MutableInfo)
    (groups : List (String × List Nat)) (kind : String) : List (String × Nat) :=
  groups.map (fun g => (g.1, sampleVal archPrepared info kind g))

/-- NasMutator.set_max_choices: for each group assign
self.max_choices[name] to every member (the property recomputes the
same dict on each iteration, so one precomputed dict is equivalent). -/
def setMaxChoices (info : Nat → MutableInfo) (groups : List (String × List Nat))
    (cur : Nat → Nat) : Nat → Nat :=
  applyGroupChoices (fun g => dictLookup g.1 (maxChoicesDict info groups)) groups cur

/-- NasMutator.set_min_choices, symmetric to set_max_choices. -/
def setMinChoices (info : Nat → MutableInfo) (groups : List (String × List Nat))
    (cur : Nat → Nat) : Nat → Nat :=
  applyGroupChoices (fun g => dictLookup g.1 (minChoicesDict info groups)) groups cur

/-- Joint state of a NasMutator together with the algorithm attributes
(architecture, is_supernet) that fix_choices reads and writes.
`archMutables` are the ids of the BaseMutable modules found by
self.architecture.modules(); `fixed` is each module's is_fixed flag
and `chosen` records the argument of its fix_chosen call.  -/
structure NasState where
  info : Nat → MutableInfo
  current : Nat → Nat
  fixed : Nat → Bool
  chosen : Nat → Option Nat
  groups : List (String × List Nat)
  archMutables : List Nat
  archPrepared : Bool
  isSupernet : Bool

/-- Modelled from the spec: BaseMutable.fix_chosen is not under src/.
The spec describes fixing as permanently selecting the choice, so
fix_chosen(choice) marks the module fixed with that chosen value.
This step embeds the body of the fix_choices loop: modules that are
already fixed are left untouched. -/
def fixStep (st : NasState) (id : Nat) : NasState :=
  if st.fixed id = true then st
  else
    { st with
      fixed := fun j => if j = id then true else st.fixed j,
      chosen := fun j => if j = id then some (st.current id) else st.chosen j }

/-- The loop `for module in self.architecture.modules()` of
NasMutator.fix_choices. -/
def fixAll (l : List Nat) (st : NasState) : NasState :=
  match l with
  | [] => st
  | id :: rest => fixAll rest (fixStep st id)

/-- The state right after the set_choices(sample_choices()) line of
fix_choices: the sampled choices are applied to the current store. -/
def fixChoicesMid (s : NasState) : NasState :=
  { s with
    current := setChoices s.info
      (sampleChoicesD s.archPrepared s.info s.groups "random") s.groups s.current }

/-- NasMutator.fix_choices: apply freshly sampled choices via
set_choices, fix every not-yet-fixed BaseMutable of the architecture
at its current choice, and clear is_supernet. -/
def fixChoices (s : NasState) : NasState :=
  let s2 := fixAll s.archMutables (fixChoicesMid s)
  { s2 with isSupernet := false }

/-- A channel unit as produced by
OneShotMutableChannelUnit.init_from_predefined_model: its name,
whether it is mutable, and its max and current choice. -/
structure ChannelUnitM where
  name : String
  isMutable : Bool
  maxChoice : Nat
  currentChoice : Nat
  deriving DecidableEq

/-- Whether a module name occurs in no entry of custom_groups. -/
def inNoCustomGroup (customGroups : List (List String)) (n : String) : Bool :=
  customGroups.all (fun cg => decide (n ∉ cg))

/-- Modelled from the spec: the merged groups part of
GroupMixin.build_search_groups, which is not under src/.  Each entry
of custom_groups yields one merged search group holding the searchable
modules that the entry names. -/
def mergedGroups (modules : List String) : Nat → List (List String) →
    List (String × List String)
  | _, [] => []
  | i, cg :: rest =>
    ("group_" ++ toString i, cg.filter (fun n => decide (n ∈ modules))) ::
      mergedGroups modules (i + 1) rest

/-- Modelled from the spec: GroupMixin.build_search_groups is not
under src/.  Per the spec, custom_groups are user-defined search
groups and all searchable modules that are not in custom_groups are
grouped separately: each custom entry becomes one merged group, and
every module named by no entry gets its own singleton group. -/
def buildSearchGroups (modules : List String) (customGroups : List (List String)) :
    List (String × List String) :=
  mergedGroups modules 0 customGroups ++
    (modules.filter (inNoCustomGroup customGroups)).map (fun n => (n, [n]))

/-- The channel part of NasMutator.prepare_from_supernet:
for id, unit in enumerate(mutable_units): one singleton group keyed
'channel_' + str(id). -/
def channelGroupsFrom : Nat → List ChannelUnitM → List (String × List String)
  | _, [] => []
  | i, u :: rest =>
    ("channel_" ++ toString i, [u.name]) :: channelGroupsFrom (i + 1) rest

/-- NasMutator._prepare_from_predefined_model: for each discovered
unit, unit.current_choice = unit.max_choice. -/
def activateUnitsAtMax (units : List ChannelUnitM) : List ChannelUnitM :=
  units.map (fun u => { u with currentChoice := u.maxChoice })

/-- The mutable units kept for channel grouping:
[unit for unit in self.units if unit.is_mutable]. -/
def preparedMutableUnits (predefUnits : List ChannelUnitM) : List ChannelUnitM :=
  (activateUnitsAtMax predefUnits).filter (fun u => u.isMutable)

/-- The search groups dict built by NasMutator.prepare_from_supernet:
the channel singleton groups followed by the value groups from
build_search_groups (insertion order of the two dict updates). -/
def nasBuiltGroups (predefUnits : List ChannelUnitM) (valueModules : List String)
    (customGroups : List (List String)) : List (String × List String) :=
  channelGroupsFrom 0 (preparedMutableUnits predefUnits) ++
    buildSearchGroups valueModules customGroups

/-- Attribute state of a NasMutator object relevant to construction
and preparation: _search_groups is None until prepare_from_supernet
stores the built dict. -/
structure NasMutatorS where
  customGroups : List (List String)
  searchGroupsOpt : Option (List (String × List String))
  units : List ChannelUnitM
  name2unit : List (String × ChannelUnitM)
  deriving DecidableEq

/-- NasMutator.__init__: custom_groups defaults to [] and
_search_groups is set to None. -/
def nasMutatorNew (customGroups : Option (List (List String))) : NasMutatorS :=
  { customGroups := customGroups.getD []
    searchGroupsOpt := none
    units := []
    name2unit := [] }

/-- The NasMutator.search_groups property: raise RuntimeError while
_search_groups is None, otherwise return it. -/
def searchGroupsOf (s : NasMutatorS) : Except String (List (String × List String)) :=
  match s.searchGroupsOpt with
  | none => Except.error "RuntimeError: Call prepare_from_supernet first to get the search space."
  | some g => Except.ok g

/-- NasMutator.prepare_from_supernet.  The supernet is observed
through the units that OneShotMutableChannelUnit.init_from_predefined_model
discovers on it (modelled from the spec: that constructor is not
under src/) and the names of its searchable value modules. -/
def nasPrepareFromSupernet (predefUnits : List ChannelUnitM)
    (valueModules : List String) (s : NasMutatorS) : NasMutatorS :=
  let units2 := activateUnitsAtMax predefUnits
  { s with
    units := units2
    name2unit := units2.map (fun u => (u.name, u))
    searchGroupsOpt :=
      some (nasBuiltGroups predefUnits valueModules s.customGroups) }

/-- A channel unit as handled by ChannelMutator.prepare_from_supernet:
`prepared` records whether unit.prepare_for_pruning(supernet) has been
called on it (modelled from the spec: MutableChannelUnit is not under
src/). -/
structure PChannelUnit where
  name : String
  isMutable : Bool
  prepared : Bool
  deriving DecidableEq

/-- The parse_cfg attribute of a ChannelMutator: either a built
ChannelAnalyzer instance or a config dict with a 'type' string. -/
inductive ParseCfg where
  | analyzerInstance
  | dictCfg (typeStr : String)
  deriving DecidableEq

/-- The three unit sources a supernet model offers to
ChannelMutator.prepare_from_supernet: what the tracer would discover,
what channel_unit_cfg['units'] describes, and what the pre-defined
dynamic ops provide (all three constructors are modelled from the
spec: ChannelAnalyzer.analyze and the unit constructors are not under
src/). -/
structure SupernetModel where
  tracedUnits : List PChannelUnit
  cfgUnits : List PChannelUnit
  predefinedUnits : List PChannelUnit
  deriving DecidableEq

/-- Whether the first character list starts the second. -/
def charsStart : List Char → List Char → Bool
  | [], _ => true
  | _ :: _, [] => false
  | a :: as, b :: bs => a == b && charsStart as bs

/-- Whether the first character list occurs inside the second. -/
def charsInside (needle : List Char) : List Char → Bool
  | [] => charsStart needle []
  | b :: bs => charsStart needle (b :: bs) || charsInside needle bs

/-- The Python substring test used by prepare_from_supernet:
'Analyzer' in parse_cfg['type']. -/
def analyzerInType (t : String) : Bool :=
  charsInside "Analyzer".data t.data

/-- The dispatch of ChannelMutator.prepare_from_supernet (lines
112-120): tracer when parse_cfg is a ChannelAnalyzer or its type
contains 'Analyzer', config units when the type is 'Config',
pre-defined units when it is 'Predefined', NotImplementedError
otherwise. -/
def discoverUnits (p : ParseCfg) (m : SupernetModel) : Except String (List PChannelUnit) :=
  match p with
  | ParseCfg.analyzerInstance => Except.ok m.tracedUnits
  | ParseCfg.dictCfg t =>
    if analyzerInType t then Except.ok m.tracedUnits
    else if t = "Config" then Except.ok m.cfgUnits
    else if t = "Predefined" then Except.ok m.predefinedUnits
    else Except.error "NotImplementedError"

/-- Attribute state of a ChannelMutator after preparation. -/
structure ChannelMutatorS where
  units : List PChannelUnit
  name2unit : List (String × PChannelUnit)
  searchGroups : List (String × List String)
  deriving DecidableEq

/-- The effect of ChannelMutator.prepare_from_supernet after units are
discovered: prepare_for_pruning on every unit, record each unit under
its name in _name2unit, and build the search groups from the mutable
units. -/
def channelPrepared (us : List PChannelUnit) (customGroups : List (List String)) :
    ChannelMutatorS :=
  let prepared := us.map (fun u => { u with prepared := true })
  { units := prepared
    name2unit := prepared.map (fun u => (u.name, u))
    searchGroups :=
      buildSearchGroups ((prepared.filter (fun u => u.isMutable)).map (fun u => u.name))
        customGroups }

/-- ChannelMutator.prepare_from_supernet. -/
def channelPrepareFromSupernet (p : ParseCfg) (m : SupernetModel)
    (customGroups : List (List String)) : Except String ChannelMutatorS :=
  match discoverUnits p m with
  | Except.error e => Except.error e
  | Except.ok us => Except.ok (channelPrepared us customGroups)

/-- Observable state of an Autoformer algorithm in its loss step. -/
structure AutoformerS where
  isSupernet : Bool
  activeSubnet : List (String × Nat)
  deriving DecidableEq

/-- Modelled from the spec: SpaceMixin.set_subnet is not under src/.
Per the spec it activates the given sub-network on the weight-shared
supernet; activation is recorded as the active subnet. -/
def setSubnet (s : AutoformerS) (subnet : List (String × Nat)) : AutoformerS :=
  { s with activeSubnet := subnet }

/-- Autoformer.loss: while is_supernet, activate a freshly sampled
sub-network via set_subnet(sample_subnet()) and only then run the
architecture in loss mode; otherwise run the architecture directly.
sample_subnet (SpaceMixin, modelled from the spec) and the
architecture forward are parameters since they are not under src/. -/
def autoformerLoss (sampleSubnet : AutoformerS → List (String × Nat))
    (archForwardLoss : AutoformerS → Nat) (s : AutoformerS) : Nat × AutoformerS :=
  if s.isSupernet = true then
    let s2 := setSubnet s (sampleSubnet s)
    (archForwardLoss s2, s2)
  else (archForwardLoss s, s)

/-- One mutator config entry of the mutators dict passed to
Autoformer.__init__, observed through the parse_cfg['type'] value the
constructor asserts on (none when parse_cfg is absent or not a dict). -/
structure MutatorCfgE where
  parseCfgType : Option String
  deriving DecidableEq

/-- The mutators argument of Autoformer.__init__: None, a dict, or a
value of some other Python type. -/
inductive MutatorsArg where
  | noneArg
  | dictArg (cfgs : List (String × MutatorCfgE))
  | otherArg (typeName : String)
  deriving DecidableEq

/-- The Python exceptions Autoformer.__init__ can raise. -/
inductive PyError where
  | assertionError (msg : String)
  | typeError (msg : String)
  | unboundLocalError (localName : String)
  deriving DecidableEq

/-- The attribute Autoformer.__init__ establishes on success. -/
structure AutoformerBuilt where
  isSupernet : Bool
  deriving DecidableEq

/-- Autoformer.__init__ (lines 54-80).  With a truthy fix_subnet the
supernet is collapsed and is_supernet is False.  Otherwise mutators
must not be None (assert) and must be a dict; each entry with a dict
parse_cfg must have type 'Predefined' (assert).  In the non-dict
branch the raise TypeError statement interpolates the local variable
`mutator`, which is assigned only inside the dict-branch loop and is
therefore unbound there, so Python raises UnboundLocalError while
evaluating the message, before any TypeError is constructed. -/
def autoformerInitE (fixSubnet : Bool) (mutators : MutatorsArg) :
    Except PyError AutoformerBuilt :=
  if fixSubnet then Except.ok { isSupernet := false }
  else
    match mutators with
    | MutatorsArg.noneArg =>
      Except.error (PyError.assertionError "mutator cannot be None when fix_subnet is None.")
    | MutatorsArg.dictArg cfgs =>
      if cfgs.all (fun c =>
          match c.2.parseCfgType with
          | none => true
          | some t => decide (t = "Predefined")) then
        Except.ok { isSupernet := true }
      else Except.error (PyError.assertionError "autoformer only support predefined.")
    | MutatorsArg.otherArg _ =>
      Except.error (PyError.unboundLocalError "mutator")

/-- A concrete static environment used to evaluate the theorems on
explicit inputs. -/
def infoW : Nat → MutableInfo := fun n =>
  { aliasName := if n = 2 then some "al" else none
    maxChoice := 8 + n
    minChoice := n
    sampleChoice := 5
    sampleArch := 7 }

/-- Concrete search groups used to evaluate the theorems. -/
def groupsW : List (String × List Nat) := [("a", [0, 1]), ("b", [2])]

/-- A concrete choices dict used to evaluate the theorems. -/
def choicesW : List (String × Nat) := [("a", 4)]

/-- A concrete initial current_choice store. -/
def curW : Nat → Nat := fun _ => 9

/-- A concrete joint mutator and algorithm state. -/
def nasStateW : NasState :=
  { info := infoW
    current := curW
    fixed := fun n => decide (n = 3)
    chosen := fun _ => none
    groups := groupsW
    archMutables := [0, 1, 2, 3]
    archPrepared := false
    isSupernet := true }

/-- A concrete supernet observation for the ChannelMutator theorems. -/
def supernetW : SupernetModel :=
  { tracedUnits := [{ name := "t0", isMutable := true, prepared := false }]
    cfgUnits := [{ name := "c0", isMutable := false, prepared := false }]
    predefinedUnits := [{ name := "p0", isMutable := true, prepared := false }] }

/-! Helper lemmas about the group-choice machinery. -/

/-- Pointwise evaluation of the member-assignment loop. -/
theorem setGroupMembers_eval (members : List Nat) (c : Nat) (cur : Nat → Nat)
    (j : Nat) : setGroupMembers members c cur j = if j ∈ members then c else cur j := by
  induction members generalizing cur with
  | nil => simp [setGroupMembers]
  | cons m rest ih =>
    simp only [setGroupMembers]
    rw [ih]
    by_cases h1 : j ∈ rest
    · simp [h1]
    · by_cases h2 : j = m <;> simp [h1, h2, List.mem_cons]

/-- A group step leaves non-members untouched. -/
theorem applyGroupStep_not_mem (choiceOf : String × List Nat → Option Nat)
    (cur : Nat → Nat) (g : String × List Nat) (j : Nat) (hj : j ∉ g.2) :
    applyGroupStep choiceOf cur g j = cur j := by
  cases hc : choiceOf g with
  | none => simp [applyGroupStep, hc]
  | some c => simp [applyGroupStep, hc, setGroupMembers_eval, hj]

/-- The group loop leaves a mutable that belongs to no group untouched. -/
theorem applyGroupChoices_not_mem (choiceOf : String × List Nat → Option Nat)
    (groups : List (String × List Nat)) (cur : Nat → Nat) (j : Nat)
    (h : ∀ g ∈ groups, j ∉ g.2) :
    applyGroupChoices choiceOf groups cur j = cur j := by
  induction groups generalizing cur with
  | nil => rfl
  | cons g0 rest ih =>
    simp only [applyGroupChoices]
    rw [ih _ (fun g' hg' => h g' (List.mem_cons_of_mem _ hg'))]
    exact applyGroupStep_not_mem _ _ _ _ (h g0 (List.mem_cons_self g0 rest))

/-- In pairwise-disjoint groups, a member of a group whose choice
resolves receives exactly that choice. -/
theorem applyGroupChoices_hit (choiceOf : String × List Nat → Option Nat)
    (groups : List (String × List Nat)) (cur : Nat → Nat)
    (g : String × List Nat) (c : Nat) (j : Nat)
    (hdisj : groups.Pairwise (fun a b => ∀ x ∈ a.2, x ∉ b.2))
    (hg : g ∈ groups) (hc : choiceOf g = some c) (hj : j ∈ g.2) :
    applyGroupChoices choiceOf groups cur j = c := by
  induction groups generalizing cur with
  | nil => cases hg
  | cons g0 rest ih =>
    rcases List.mem_cons.mp hg with h | h
    · subst h
      have hnot : ∀ g' ∈ rest, j ∉ g'.2 := fun g' hg' =>
        (List.pairwise_cons.mp hdisj).1 g' hg' j hj
      simp only [applyGroupChoices]
      rw [applyGroupChoices_not_mem _ _ _ _ hnot]
      simp only [applyGroupStep, hc]
      rw [setGroupMembers_eval]
      simp [hj]
    · simp only [applyGroupChoices]
      exact ih _ (List.pairwise_cons.mp hdisj).2 h

/-- In pairwise-disjoint groups, a member of a skipped group keeps its
previous choice. -/
theorem applyGroupChoices_skip (choiceOf : String × List Nat → Option Nat)
    (groups : List (String × List Nat)) (cur : Nat → Nat)
    (g : String × List Nat) (j : Nat)
    (hdisj : groups.Pairwise (fun a b => ∀ x ∈ a.2, x ∉ b.2))
    (hg : g ∈ groups) (hc : choiceOf g = none) (hj : j ∈ g.2) :
    applyGroupChoices choiceOf groups cur j = cur j := by
  induction groups generalizing cur with
  | nil => cases hg
  | cons g0 rest ih =>
    rcases List.mem_cons.mp hg with h | h
    · subst h
      have hnot : ∀ g' ∈ rest, j ∉ g'.2 := fun g' hg' =>
        (List.pairwise_cons.mp hdisj).1 g' hg' j hj
      simp only [applyGroupChoices]
      rw [applyGroupChoices_not_mem _ _ _ _ hnot]
      simp only [applyGroupStep, hc]
    · have hj0 : j ∉ g0.2 := fun hmem =>
        (List.pairwise_cons.mp hdisj).1 g h j hmem hj
      simp only [applyGroupChoices]
      rw [ih _ (List.pairwise_cons.mp hdisj).2 h]
      exact applyGroupStep_not_mem _ _ _ _ hj0

/-- Looking a group key up in a dict mapped over the groups returns
the value for that group, provided group names do not repeat. -/
theorem dictLookup_map_fst (groups : List (String × List Nat))
    (f : String × List Nat → Nat) (g : String × List Nat)
    (hkeys : groups.Pairwise (fun a b => a.1 ≠ b.1)) (hg : g ∈ groups) :
    dictLookup g.1 (groups.map (fun h => (h.1, f h))) = some (f g) := by
  induction groups with
  | nil => cases hg
  | cons g0 rest ih =>
    rcases List.mem_cons.mp hg with h | h
    · subst h
      simp [dictLookup]
    · have hne : g.1 ≠ g0.1 :=
        fun he => (List.pairwise_cons.mp hkeys).1 g h he.symm
      simp only [List.map, dictLookup]
      rw [if_neg hne]
      exact ih (List.pairwise_cons.mp hkeys).2 h

/-- Map congruence restricted to members. -/
theorem listMapCongrMem {α β : Type} (l : List α) (f g : α → β)
    (h : ∀ x ∈ l, f x = g x) : l.map f = l.map g := by
  induction l with
  | nil => rfl
  | cons a t ih =>
    simp only [List.map]
    rw [h a (List.mem_cons_self a t), ih (fun x hx => h x (List.mem_cons_of_mem a hx))]

/-- The default head of a nonempty list is a member. -/
theorem headD_mem_of_ne_nil {l : List Nat} (h : l ≠ []) : l.headD 0 ∈ l := by
  cases l with
  | nil => exact absurd rfl h
  | cons a t => simp

/-! Helper lemmas about the fix_choices loop. -/

/-- fix_chosen never changes current_choice. -/
theorem fixStep_current (st : NasState) (id : Nat) :
    (fixStep st id).current = st.current := by
  unfold fixStep; split <;> rfl

/-- The fix loop never changes current_choice. -/
theorem fixAll_current (l : List Nat) (st : NasState) :
    (fixAll l st).current = st.current := by
  induction l generalizing st with
  | nil => rfl
  | cons a t ih => rw [fixAll, ih, fixStep_current]

/-- A step on one module leaves the fixed flag of the others alone. -/
theorem fixStep_fixed_other (st : NasState) (a id : Nat) (hne : id ≠ a) :
    (fixStep st a).fixed id = st.fixed id := by
  unfold fixStep; split
  · rfl
  · simp [hne]

/-- A step on one module leaves the chosen record of the others alone. -/
theorem fixStep_chosen_other (st : NasState) (a id : Nat) (hne : id ≠ a) :
    (fixStep st a).chosen id = st.chosen id := by
  unfold fixStep; split
  · rfl
  · simp [hne]

/-- After its own step a module is fixed. -/
theorem fixStep_fixed_self (st : NasState) (a : Nat) :
    (fixStep st a).fixed a = true := by
  unfold fixStep; split
  · assumption
  · simp

/-- Fixedness is preserved by a step. -/
theorem fixStep_fixed_mono (st : NasState) (a id : Nat) (h : st.fixed id = true) :
    (fixStep st a).fixed id = true := by
  unfold fixStep; split
  · exact h
  · by_cases hia : id = a <;> simp [hia, h]

/-- Fixedness is preserved by the fix loop. -/
theorem fixAll_fixed_mono (l : List Nat) (st : NasState) (id : Nat)
    (h : st.fixed id = true) : (fixAll l st).fixed id = true := by
  induction l generalizing st with
  | nil => exact h
  | cons a t ih => exact ih _ (fixStep_fixed_mono st a id h)

/-- An already-fixed module keeps its chosen record through the loop. -/
theorem fixAll_chosen_of_fixed (l : List Nat) (st : NasState) (id : Nat)
    (h : st.fixed id = true) : (fixAll l st).chosen id = st.chosen id := by
  induction l generalizing st with
  | nil => rfl
  | cons a t ih =>
    rw [fixAll]
    by_cases hia : id = a
    · subst hia
      have hstep : fixStep st id = st := by unfold fixStep; rw [if_pos h]
      rw [hstep]
      exact ih st h
    · rw [ih _ (fixStep_fixed_mono st a id h), fixStep_chosen_other st a id hia]

/-- Every module listed in the loop ends up fixed. -/
theorem fixAll_fixes (l : List Nat) (st : NasState) (id : Nat) (h : id ∈ l) :
    (fixAll l st).fixed id = true := by
  induction l generalizing st with
  | nil => cases h
  | cons a t ih =>
    rw [fixAll]
    rcases List.mem_cons.mp h with h1 | h1
    · subst h1
      exact fixAll_fixed_mono t _ id (fixStep_fixed_self st id)
    · exact ih _ h1

/-- A listed module that was not yet fixed gets fix_chosen at its
current choice. -/
theorem fixAll_chosen_new (l : List Nat) (st : NasState) (id : Nat)
    (hmem : id ∈ l) (hfix : st.fixed id = false) :
    (fixAll l st).chosen id = some (st.current id) := by
  induction l generalizing st with
  | nil => cases hmem
  | cons a t ih =>
    rw [fixAll]
    by_cases hia : id = a
    · subst hia
      have hstep : fixStep st id =
          { st with
            fixed := fun j => if j = id then true else st.fixed j,
            chosen := fun j => if j = id then some (st.current id) else st.chosen j } := by
        unfold fixStep
        rw [if_neg (by rw [hfix]; exact Bool.false_ne_true)]
      rw [hstep, fixAll_chosen_of_fixed _ _ _ (by simp)]
      simp
    · rcases List.mem_cons.mp hmem with h1 | h1
      · exact absurd h1 hia
      · rw [ih _ h1 (by rw [fixStep_fixed_other st a id hia]; exact hfix)]
        rw [fixStep_current]

/-! Helper lemmas about the built search-group dicts. -/

/-- Every custom_groups entry contributes one merged group, whatever
the running index is. -/
theorem mergedGroups_mem (modules : List String) :
    ∀ (customGroups : List (List String)) (j : Nat) (cg : List String),
      cg ∈ customGroups →
      ∃ nm, (nm, cg.filter (fun n => decide (n ∈ modules)))
        ∈ mergedGroups modules j customGroups := by
  intro customGroups
  induction customGroups with
  | nil => intro j cg hcg; cases hcg
  | cons c0 rest ih =>
    intro j cg hcg
    rcases List.mem_cons.mp hcg with h | h
    · subst h
      exact ⟨"group_" ++ toString j, List.mem_cons_self _ _⟩
    · rcases ih (j + 1) cg h with ⟨nm, hnm⟩
      exact ⟨nm, List.mem_cons_of_mem _ hnm⟩

/-- The unit at position i of the enumeration yields the channel
group keyed by the running index plus i. -/
theorem channelGroupsFrom_mem :
    ∀ (l : List ChannelUnitM) (j i : Nat) (u : ChannelUnitM), l.get? i = some u →
      ("channel_" ++ toString (j + i), [u.name]) ∈ channelGroupsFrom j l := by
  intro l
  induction l with
  | nil => intro j i u h; cases h
  | cons a t ih =>
    intro j i u h
    cases i with
    | zero =>
      have ha : a = u := by
        have : some a = some u := h
        exact Option.some.inj this
      subst ha
      have hz : j + 0 = j := Nat.add_zero j
      rw [hz]
      exact List.mem_cons_self _ _
    | succ i2 =>
      have ht : t.get? i2 = some u := h
      have harith : j + (i2 + 1) = (j + 1) + i2 := by omega
      rw [harith]
      exact List.mem_cons_of_mem _ (ih (j + 1) i2 u ht)

/-! The claim theorems. -/

/-- C1: ChannelMutator.prepare_from_supernet discovers channel units
according to parse_cfg: via the tracer when parse_cfg is a
ChannelAnalyzer instance or its type string contains 'Analyzer', from
the configured units when the type is 'Config', from the pre-defined
dynamic ops when it is 'Predefined', and raises NotImplementedError
otherwise; on every discovered unit it calls prepare_for_pruning,
records the unit under its name in _name2unit, and builds the search
groups from exactly the mutable units. -/
theorem channel_prepare_from_supernet_spec (m : SupernetModel)
    (customGroups : List (List String)) :
    (channelPrepareFromSupernet ParseCfg.analyzerInstance m customGroups
      = Except.ok (channelPrepared m.tracedUnits customGroups)) ∧
    (∀ t, analyzerInType t = true →
      channelPrepareFromSupernet (ParseCfg.dictCfg t) m customGroups
        = Except.ok (channelPrepared m.tracedUnits customGroups)) ∧
    (channelPrepareFromSupernet (ParseCfg.dictCfg "Config") m customGroups
      = Except.ok (channelPrepared m.cfgUnits customGroups)) ∧
    (channelPrepareFromSupernet (ParseCfg.dictCfg "Predefined") m customGroups
      = Except.ok (channelPrepared m.predefinedUnits customGroups)) ∧
    (∀ t, analyzerInType t = false → t ≠ "Config" → t ≠ "Predefined" →
      channelPrepareFromSupernet (ParseCfg.dictCfg t) m customGroups
        = Except.error "NotImplementedError") ∧
    (∀ us, (∀ u ∈ (channelPrepared us customGroups).units, u.prepared = true) ∧
      (channelPrepared us customGroups).name2unit
        = (channelPrepared us customGroups).units.map (fun u => (u.name, u)) ∧
      (channelPrepared us customGroups).searchGroups
        = buildSearchGroups
            (((channelPrepared us customGroups).units.filter
              (fun u => u.isMutable)).map (fun u => u.name)) customGroups) := by
  refine ⟨rfl, ?_, rfl, rfl, ?_, ?_⟩
  · intro t ht
    simp [channelPrepareFromSupernet, discoverUnits, ht]
  · intro t h1 h2 h3
    simp [channelPrepareFromSupernet, discoverUnits, h1, h2, h3]
  · intro us
    refine ⟨?_, rfl, rfl⟩
    intro u hu
    rcases List.mem_map.mp hu with ⟨v, _, rfl⟩
    rfl

/-- Witness evaluating C1 on concrete inputs, including the substring
dispatch and the otherwise branch. -/
theorem channel_prepare_from_supernet_spec_witness :
    (analyzerInType "MyAnalyzer" = true ∧
      channelPrepareFromSupernet (ParseCfg.dictCfg "MyAnalyzer") supernetW []
        = Except.ok (channelPrepared supernetW.tracedUnits [])) ∧
    (analyzerInType "Tracer" = false ∧ "Tracer" ≠ "Config" ∧ "Tracer" ≠ "Predefined" ∧
      channelPrepareFromSupernet (ParseCfg.dictCfg "Tracer") supernetW []
        = Except.error "NotImplementedError") :=
  ⟨⟨by decide,
    (channel_prepare_from_supernet_spec supernetW []).2.1 "MyAnalyzer" (by decide)⟩,
   ⟨by decide, by decide, by decide,
    (channel_prepare_from_supernet_spec supernetW []).2.2.2.2.1 "Tracer"
      (by decide) (by decide) (by decide)⟩⟩

/-- C2: the built search groups place modules named together in one
custom_groups entry into the same merged group, give every module not
named in any entry its own singleton group, and in NasMutator give
each mutable channel unit its own singleton group keyed channel_id. -/
theorem nas_group_partition (predefUnits : List ChannelUnitM)
    (valueModules : List String) (customGroups : List (List String)) :
    (∀ cg ∈ customGroups, ∀ m1 ∈ cg, ∀ m2 ∈ cg,
      m1 ∈ valueModules → m2 ∈ valueModules →
      ∃ g ∈ nasBuiltGroups predefUnits valueModules customGroups,
        m1 ∈ g.2 ∧ m2 ∈ g.2) ∧
    (∀ mo ∈ valueModules, (∀ cg ∈ customGroups, mo ∉ cg) →
      (mo, [mo]) ∈ nasBuiltGroups predefUnits valueModules customGroups) ∧
    (∀ i u, (preparedMutableUnits predefUnits).get? i = some u →
      ("channel_" ++ toString i, [u.name])
        ∈ nasBuiltGroups predefUnits valueModules customGroups) := by
  refine ⟨?_, ?_, ?_⟩
  · intro cg hcg m1 hm1 m2 hm2 hv1 hv2
    rcases mergedGroups_mem valueModules customGroups 0 cg hcg with ⟨nm, hnm⟩
    refine ⟨(nm, cg.filter (fun n => decide (n ∈ valueModules))), ?_, ?_, ?_⟩
    · exact List.mem_append_right _ (List.mem_append_left _ hnm)
    · exact List.mem_filter.mpr ⟨hm1, decide_eq_true hv1⟩
    · exact List.mem_filter.mpr ⟨hm2, decide_eq_true hv2⟩
  · intro mo hmo hno
    have hall : inNoCustomGroup customGroups mo = true :=
      List.all_eq_true.mpr (fun cg hcg => decide_eq_true (hno cg hcg))
    have hfil : mo ∈ valueModules.filter (inNoCustomGroup customGroups) :=
      List.mem_filter.mpr ⟨hmo, hall⟩
    have hmem : (mo, [mo])
        ∈ (valueModules.filter (inNoCustomGroup customGroups)).map (fun n => (n, [n])) :=
      List.mem_map.mpr ⟨mo, hfil, rfl⟩
    exact List.mem_append_right _ (List.mem_append_right _ hmem)
  · intro i u h
    have hmem := channelGroupsFrom_mem (preparedMutableUnits predefUnits) 0 i u h
    rw [Nat.zero_add] at hmem
    exact List.mem_append_left _ hmem

/-- Witness evaluating C2 on concrete inputs. -/
theorem nas_group_partition_witness :
    (("x" : String) ∈ ["x", "y"] ∧ ("y" : String) ∈ ["x", "y"] ∧
      ("x" : String) ∈ ["x", "y", "z"] ∧ ("y" : String) ∈ ["x", "y", "z"] ∧
      (∃ g ∈ nasBuiltGroups
          [{ name := "u0", isMutable := true, maxChoice := 4, currentChoice := 1 }]
          ["x", "y", "z"] [["x", "y"]],
        ("x" : String) ∈ g.2 ∧ ("y" : String) ∈ g.2)) ∧
    ((∀ cg ∈ [["x", "y"]], ("z" : String) ∉ cg) ∧
      (("z" : String), ["z"]) ∈ nasBuiltGroups
        [{ name := "u0", isMutable := true, maxChoice := 4, currentChoice := 1 }]
        ["x", "y", "z"] [["x", "y"]]) ∧
    ((preparedMutableUnits
        [{ name := "u0", isMutable := true, maxChoice := 4, currentChoice := 1 }]).get? 0
      = some { name := "u0", isMutable := true, maxChoice := 4, currentChoice := 4 } ∧
      ("channel_" ++ toString 0, ["u0"]) ∈ nasBuiltGroups
        [{ name := "u0", isMutable := true, maxChoice := 4, currentChoice := 1 }]
        ["x", "y", "z"] [["x", "y"]]) :=
  ⟨⟨by decide, by decide, by decide, by decide,
    (nas_group_partition
      [{ name := "u0", isMutable := true, maxChoice := 4, currentChoice := 1 }]
      ["x", "y", "z"] [["x", "y"]]).1 ["x", "y"] (by decide) "x" (by decide) "y"
      (by decide) (by decide) (by decide)⟩,
   ⟨by decide,
    (nas_group_partition
      [{ name := "u0", isMutable := true, maxChoice := 4, currentChoice := 1 }]
      ["x", "y", "z"] [["x", "y"]]).2.1 "z" (by decide) (by decide)⟩,
   ⟨by decide,
    (nas_group_partition
      [{ name := "u0", isMutable := true, maxChoice := 4, currentChoice := 1 }]
      ["x", "y", "z"] [["x", "y"]]).2.2 0
      { name := "u0", isMutable := true, maxChoice := 4, currentChoice := 4 } (by decide)⟩⟩

/-- C3: after set_choices, every mutable of a group whose name (or,
failing that, the alias of its first mutable) resolves in the choices
dict carries exactly the resolved choice; a group that resolves to
nothing is skipped and its members keep their previous choice. -/
theorem nas_set_choices_group_consistent (info : Nat → MutableInfo)
    (choices : List (String × Nat)) (groups : List (String × List Nat))
    (cur : Nat → Nat) (g : String × List Nat) (c : Nat)
    (hdisj : groups.Pairwise (fun a b => ∀ x ∈ a.2, x ∉ b.2))
    (hg : g ∈ groups) :
    (resolveChoice info choices g = some c →
      ∀ mb ∈ g.2, setChoices info choices groups cur mb = c) ∧
    (resolveChoice info choices g = none →
      ∀ mb ∈ g.2, setChoices info choices groups cur mb = cur mb) := by
  constructor
  · intro hres mb hm
    exact applyGroupChoices_hit _ groups cur g c mb hdisj hg hres hm
  · intro hres mb hm
    exact applyGroupChoices_skip _ groups cur g mb hdisj hg hres hm

/-- Witness evaluating C3 on concrete inputs: group a is set to its
resolved choice, group b resolves to nothing and is left unchanged. -/
theorem nas_set_choices_group_consistent_witness :
    (groupsW.Pairwise (fun a b => ∀ x ∈ a.2, x ∉ b.2) ∧
      ("a", [0, 1]) ∈ groupsW ∧
      resolveChoice infoW choicesW ("a", [0, 1]) = some 4 ∧ (1 : Nat) ∈ [0, 1] ∧
      setChoices infoW choicesW groupsW curW 1 = 4) ∧
    (("b", [2]) ∈ groupsW ∧
      resolveChoice infoW choicesW ("b", [2]) = none ∧ (2 : Nat) ∈ [2] ∧
      setChoices infoW choicesW groupsW curW 2 = curW 2) :=
  ⟨⟨by decide, by decide, by decide, by decide,
    (nas_set_choices_group_consistent infoW choicesW groupsW curW ("a", [0, 1]) 4
      (by decide) (by decide)).1 (by decide) 1 (by decide)⟩,
   ⟨by decide, by decide, by decide,
    (nas_set_choices_group_consistent infoW choicesW groupsW curW ("b", [2]) 0
      (by decide) (by decide)).2 (by decide) 2 (by decide)⟩⟩

/-- C4: while is_supernet is true, Autoformer.loss first activates a
freshly sampled sub-network via set_subnet(sample_subnet()) and only
then evaluates the architecture in loss mode; with is_supernet false
the loss is computed on the unchanged state with no sampling or
subnet change. -/
theorem autoformer_loss_control (sampleSubnet : AutoformerS → List (String × Nat))
    (archForwardLoss : AutoformerS → Nat) (s : AutoformerS) :
    (s.isSupernet = true →
      autoformerLoss sampleSubnet archForwardLoss s
        = (archForwardLoss (setSubnet s (sampleSubnet s)),
           setSubnet s (sampleSubnet s))) ∧
    (s.isSupernet = false →
      autoformerLoss sampleSubnet archForwardLoss s = (archForwardLoss s, s)) := by
  constructor <;> intro h <;> simp [autoformerLoss, h]

/-- Witness evaluating C4 on concrete inputs: in supernet mode the
loss sees the newly activated subnet, otherwise the state is
untouched. -/
theorem autoformer_loss_control_witness :
    ((AutoformerS.mk true []).isSupernet = true ∧
      autoformerLoss (fun _ => [("g", 1)]) (fun st => st.activeSubnet.length)
        (AutoformerS.mk true []) = (1, AutoformerS.mk true [("g", 1)])) ∧
    ((AutoformerS.mk false []).isSupernet = false ∧
      autoformerLoss (fun _ => [("g", 1)]) (fun st => st.activeSubnet.length)
        (AutoformerS.mk false []) = (0, AutoformerS.mk false [])) :=
  ⟨⟨rfl,
    ((autoformer_loss_control (fun _ => [("g", 1)])
      (fun st => st.activeSubnet.length) (AutoformerS.mk true [])).1 rfl).trans
      (by decide)⟩,
   ⟨rfl,
    ((autoformer_loss_control (fun _ => [("g", 1)])
      (fun st => st.activeSubnet.length) (AutoformerS.mk false [])).2 rfl).trans
      (by decide)⟩⟩

/-- C5: fix_choices applies one freshly sampled choice per search
group via set_choices, then calls fix_chosen(current_choice) on every
not-yet-fixed BaseMutable of the architecture (already fixed modules
keep their record), and finally clears is_supernet. -/
theorem nas_fix_choices_spec (s : NasState) :
    (fixChoices s).isSupernet = false ∧
    (∀ j, (fixChoices s).current j
      = setChoices s.info (sampleChoicesD s.archPrepared s.info s.groups "random")
          s.groups s.current j) ∧
    (∀ id ∈ s.archMutables, (fixChoices s).fixed id = true) ∧
    (∀ id ∈ s.archMutables, s.fixed id = false →
      (fixChoices s).chosen id = some ((fixChoices s).current id)) ∧
    (∀ id, s.fixed id = true → (fixChoices s).chosen id = s.chosen id) := by
  have hcur : ∀ j, (fixChoices s).current j
      = setChoices s.info (sampleChoicesD s.archPrepared s.info s.groups "random")
          s.groups s.current j := by
    intro j
    show (fixAll s.archMutables (fixChoicesMid s)).current j = _
    rw [fixAll_current]
    rfl
  refine ⟨rfl, hcur, ?_, ?_, ?_⟩
  · intro id hid
    show (fixAll s.archMutables (fixChoicesMid s)).fixed id = true
    exact fixAll_fixes _ _ _ hid
  · intro id hid hfix
    have hfix1 : (fixChoicesMid s).fixed id = false := hfix
    show (fixAll s.archMutables (fixChoicesMid s)).chosen id
      = some ((fixChoices s).current id)
    rw [fixAll_chosen_new s.archMutables (fixChoicesMid s) id hid hfix1]
    rw [hcur id]
    rfl
  · intro id hfix
    have hfix1 : (fixChoicesMid s).fixed id = true := hfix
    show (fixAll s.archMutables (fixChoicesMid s)).chosen id = s.chosen id
    rw [fixAll_chosen_of_fixed _ _ _ hfix1]
    rfl

/-- Witness evaluating C5 on a concrete state: module 1 (not fixed)
gets fixed at its current choice, module 3 (already fixed) keeps its
record, and is_supernet is cleared. -/
theorem nas_fix_choices_spec_witness :
    (fixChoices nasStateW).isSupernet = false ∧
    ((1 : Nat) ∈ nasStateW.archMutables ∧ nasStateW.fixed 1 = false ∧
      (fixChoices nasStateW).fixed 1 = true ∧
      (fixChoices nasStateW).chosen 1 = some ((fixChoices nasStateW).current 1)) ∧
    (nasStateW.fixed 3 = true ∧ (fixChoices nasStateW).chosen 3 = nasStateW.chosen 3) :=
  ⟨(nas_fix_choices_spec nasStateW).1,
   ⟨by decide, by decide,
    (nas_fix_choices_spec nasStateW).2.2.1 1 (by decide),
    (nas_fix_choices_spec nasStateW).2.2.2.1 1 (by decide) (by decide)⟩,
   ⟨by decide,
    (nas_fix_choices_spec nasStateW).2.2.2.2 3 (by decide)⟩⟩

/-- C6: with the search groups built (nonempty member lists, unique
group names, pairwise disjoint members) and arch params not prepared,
choice dicts round-trip: sampling, then setting, then reading
current_choices returns exactly the sampled dict. -/
theorem nas_sample_set_current_roundtrip (info : Nat → MutableInfo)
    (groups : List (String × List Nat)) (cur : Nat → Nat) (kind : String)
    (hkeys : groups.Pairwise (fun a b => a.1 ≠ b.1))
    (hne : ∀ g ∈ groups, g.2 ≠ [])
    (hdisj : groups.Pairwise (fun a b => ∀ x ∈ a.2, x ∉ b.2)) :
    currentChoicesDict
      (setChoices info (sampleChoicesD false info groups kind) groups cur) groups
      = sampleChoicesD false info groups kind := by
  show groups.map
      (fun g => (g.1,
        setChoices info (sampleChoicesD false info groups kind) groups cur (g.2.headD 0)))
    = groups.map (fun g => (g.1, sampleVal false info kind g))
  apply listMapCongrMem
  intro g hg
  have hhead : g.2.headD 0 ∈ g.2 := headD_mem_of_ne_nil (hne g hg)
  have hres : resolveChoice info (sampleChoicesD false info groups kind) g
      = some (sampleVal false info kind g) := by
    unfold resolveChoice
    rw [show sampleChoicesD false info groups kind
      = groups.map (fun h => (h.1, sampleVal false info kind h)) from rfl]
    rw [dictLookup_map_fst groups (sampleVal false info kind) g hkeys hg]
  have hset : setChoices info (sampleChoicesD false info groups kind) groups cur
      (g.2.headD 0) = sampleVal false info kind g :=
    applyGroupChoices_hit _ groups cur g _ _ hdisj hg hres hhead
  exact congrArg (fun v => (g.1, v)) hset

/-- Witness evaluating C6 on concrete groups. -/
theorem nas_sample_set_current_roundtrip_witness :
    (groupsW.Pairwise (fun a b => a.1 ≠ b.1) ∧
      (∀ g ∈ groupsW, g.2 ≠ []) ∧
      groupsW.Pairwise (fun a b => ∀ x ∈ a.2, x ∉ b.2)) ∧
    currentChoicesDict
      (setChoices infoW (sampleChoicesD false infoW groupsW "random") groupsW curW)
      groupsW = sampleChoicesD false infoW groupsW "random" :=
  ⟨⟨by decide, by decide, by decide⟩,
   nas_sample_set_current_roundtrip infoW groupsW curW "random"
     (by decide) (by decide) (by decide)⟩

/-- C7: with the search groups built, after set_max_choices the
current_choices dict equals the max_choices dict, and after
set_min_choices it equals the min_choices dict. -/
theorem nas_set_max_min_roundtrip (info : Nat → MutableInfo)
    (groups : List (String × List Nat)) (cur : Nat → Nat)
    (hkeys : groups.Pairwise (fun a b => a.1 ≠ b.1))
    (hne : ∀ g ∈ groups, g.2 ≠ [])
    (hdisj : groups.Pairwise (fun a b => ∀ x ∈ a.2, x ∉ b.2)) :
    currentChoicesDict (setMaxChoices info groups cur) groups
      = maxChoicesDict info groups ∧
    currentChoicesDict (setMinChoices info groups cur) groups
      = minChoicesDict info groups := by
  constructor
  · show groups.map (fun g => (g.1, setMaxChoices info groups cur (g.2.headD 0)))
      = groups.map (fun g => (g.1, (info (g.2.headD 0)).maxChoice))
    apply listMapCongrMem
    intro g hg
    have hhead : g.2.headD 0 ∈ g.2 := headD_mem_of_ne_nil (hne g hg)
    have hres : dictLookup g.1 (maxChoicesDict info groups)
        = some ((info (g.2.headD 0)).maxChoice) := by
      rw [show maxChoicesDict info groups
        = groups.map (fun h => (h.1, (info (h.2.headD 0)).maxChoice)) from rfl]
      exact dictLookup_map_fst groups (fun h => (info (h.2.headD 0)).maxChoice) g hkeys hg
    have hset : setMaxChoices info groups cur (g.2.headD 0)
        = (info (g.2.headD 0)).maxChoice :=
      applyGroupChoices_hit _ groups cur g _ _ hdisj hg hres hhead
    exact congrArg (fun v => (g.1, v)) hset
  · show groups.map (fun g => (g.1, setMinChoices info groups cur (g.2.headD 0)))
      = groups.map (fun g => (g.1, (info (g.2.headD 0)).minChoice))
    apply listMapCongrMem
    intro g hg
    have hhead : g.2.headD 0 ∈ g.2 := headD_mem_of_ne_nil (hne g hg)
    have hres : dictLookup g.1 (minChoicesDict info groups)
        = some ((info (g.2.headD 0)).minChoice) := by
      rw [show minChoicesDict info groups
        = groups.map (fun h => (h.1, (info (h.2.headD 0)).minChoice)) from rfl]
      exact dictLookup_map_fst groups (fun h => (info (h.2.headD 0)).minChoice) g hkeys hg
    have hset : setMinChoices info groups cur (g.2.headD 0)
        = (info (g.2.headD 0)).minChoice :=
      applyGroupChoices_hit _ groups cur g _ _ hdisj hg hres hhead
    exact congrArg (fun v => (g.1, v)) hset

/-- Witness evaluating C7 on concrete groups. -/
theorem nas_set_max_min_roundtrip_witness :
    (groupsW.Pairwise (fun a b => a.1 ≠ b.1) ∧
      (∀ g ∈ groupsW, g.2 ≠ []) ∧
      groupsW.Pairwise (fun a b => ∀ x ∈ a.2, x ∉ b.2)) ∧
    currentChoicesDict (setMaxChoices infoW groupsW curW) groupsW
      = maxChoicesDict infoW groupsW :=
  ⟨⟨by decide, by decide, by decide⟩,
   (nas_set_max_min_roundtrip infoW groupsW curW
     (by decide) (by decide) (by decide)).1⟩

/-- C8: NasMutator.search_groups raises RuntimeError on a freshly
constructed mutator and returns the built dict without raising after
prepare_from_supernet. -/
theorem nas_search_groups_guard (cgOpt : Option (List (List String)))
    (predefUnits : List ChannelUnitM) (valueModules : List String) :
    searchGroupsOf (nasMutatorNew cgOpt) = Except.error
      "RuntimeError: Call prepare_from_supernet first to get the search space." ∧
    searchGroupsOf (nasPrepareFromSupernet predefUnits valueModules (nasMutatorNew cgOpt))
      = Except.ok (nasBuiltGroups predefUnits valueModules (cgOpt.getD [])) :=
  ⟨rfl, rfl⟩

/-- C9: after NasMutator.prepare_from_supernet every discovered
channel unit, in particular every mutable one, has current_choice
equal to its max_choice. -/
theorem nas_prepare_activates_max (predefUnits : List ChannelUnitM)
    (valueModules : List String) (s : NasMutatorS) :
    ∀ u ∈ (nasPrepareFromSupernet predefUnits valueModules s).units,
      u.currentChoice = u.maxChoice := by
  intro u hu
  have hunits : (nasPrepareFromSupernet predefUnits valueModules s).units
      = activateUnitsAtMax predefUnits := rfl
  rw [hunits] at hu
  unfold activateUnitsAtMax at hu
  rcases List.mem_map.mp hu with ⟨v, _, rfl⟩
  rfl

/-- Witness evaluating C9 on a concrete supernet. -/
theorem nas_prepare_activates_max_witness :
    ({ name := "u0", isMutable := true, maxChoice := 4, currentChoice := 4 } : ChannelUnitM)
      ∈ (nasPrepareFromSupernet
          [{ name := "u0", isMutable := true, maxChoice := 4, currentChoice := 1 }]
          ["x"] (nasMutatorNew none)).units ∧
    ({ name := "u0", isMutable := true, maxChoice := 4,
        currentChoice := 4 } : ChannelUnitM).currentChoice
      = ({ name := "u0", isMutable := true, maxChoice := 4,
            currentChoice := 4 } : ChannelUnitM).maxChoice :=
  ⟨by decide,
   nas_prepare_activates_max
     [{ name := "u0", isMutable := true, maxChoice := 4, currentChoice := 1 }]
     ["x"] (nasMutatorNew none)
     { name := "u0", isMutable := true, maxChoice := 4, currentChoice := 4 }
     (by decide)⟩

/-- C10: with fix_subnet falsy and mutators neither None nor a dict,
Autoformer.__init__ does not raise the TypeError its raise statement
intends: the message interpolates the local variable mutator, which is
assigned only inside the dict branch, so the constructor raises
UnboundLocalError at that line instead.  This theorem evaluates the
embedded constructor at the failing input. -/
theorem autoformer_init_nondict_raises_unbound :
    autoformerInitE false (MutatorsArg.otherArg "list")
      = Except.error (PyError.unboundLocalError "mutator") := rfl

end Mmrazor
